import Mathlib

/-!
Shallow embedding of the `thrust` arcade-physics simulation (`src/main.rs`).

The Rust code works on `f32`; we model the numeric values as real numbers
(`ℝ`), so floating-point rounding is abstracted away and the algebraic content
of every system is kept exactly.  Entities are modelled as records of optional
components (an `Option` field is `none` exactly when the entity does not carry
that component), so the ECS `join`s of the source become pattern matches on
those options.  Systems become pure functions `World → World`.
-/

namespace Thrust

/-- 2D vector, modelling `quicksilver::geom::Vector` (a pair of `f32`). -/
structure Vec where
  x : ℝ
  y : ℝ

namespace Vec

/-- Componentwise addition (`Vector + Vector`). -/
def add (a b : Vec) : Vec := ⟨a.x + b.x, a.y + b.y⟩

instance : Add Vec := ⟨add⟩

/-- Componentwise subtraction (`Vector - Vector`, also `derive_more::Sub` on `Position`). -/
def sub (a b : Vec) : Vec := ⟨a.x - b.x, a.y - b.y⟩

instance : Sub Vec := ⟨sub⟩

/-- Scaling a vector by a scalar on the right (`Vector * f32`). -/
def scale (v : Vec) (s : ℝ) : Vec := ⟨v.x * s, v.y * s⟩

instance : HMul Vec ℝ Vec := ⟨scale⟩

/-- Dividing a vector by a scalar (`Vector / f32`). -/
noncomputable def divScalar (v : Vec) (s : ℝ) : Vec := ⟨v.x / s, v.y / s⟩

noncomputable instance : HDiv Vec ℝ Vec := ⟨divScalar⟩

/-- The zero vector (`Vector::ZERO`). -/
def zero : Vec := ⟨0, 0⟩

instance : Zero Vec := ⟨zero⟩

/-- Squared length (`Vector::len2`). -/
def len2 (v : Vec) : ℝ := v.x * v.x + v.y * v.y

/-- Length (`Vector::len`). -/
noncomputable def len (v : Vec) : ℝ := Real.sqrt v.len2

/-- Unit vector in the direction of `v` (`Vector::normalize`). -/
noncomputable def normalize (v : Vec) : Vec := v / v.len

/-- Distance between two points (`Vector::distance`). -/
noncomputable def dist (a b : Vec) : ℝ := (a - b).len

/-- Unit vector at `deg` degrees (`Vector::from_angle`; quicksilver works in degrees). -/
noncomputable def fromAngle (deg : ℝ) : Vec :=
  ⟨Real.cos (deg * Real.pi / 180), Real.sin (deg * Real.pi / 180)⟩

@[simp] theorem add_x (a b : Vec) : (a + b).x = a.x + b.x := rfl
@[simp] theorem add_y (a b : Vec) : (a + b).y = a.y + b.y := rfl
@[simp] theorem sub_x (a b : Vec) : (a - b).x = a.x - b.x := rfl
@[simp] theorem sub_y (a b : Vec) : (a - b).y = a.y - b.y := rfl
@[simp] theorem scale_x (v : Vec) (s : ℝ) : (v * s).x = v.x * s := rfl
@[simp] theorem scale_y (v : Vec) (s : ℝ) : (v * s).y = v.y * s := rfl
@[simp] theorem div_x (v : Vec) (s : ℝ) : (v / s).x = v.x / s := rfl
@[simp] theorem div_y (v : Vec) (s : ℝ) : (v / s).y = v.y / s := rfl
@[simp] theorem zero_x : (0 : Vec).x = 0 := rfl
@[simp] theorem zero_y : (0 : Vec).y = 0 := rfl
@[simp] theorem mk_add_mk (ax ay bx bY : ℝ) :
    (⟨ax, ay⟩ + ⟨bx, bY⟩ : Vec) = ⟨ax + bx, ay + bY⟩ := rfl
@[simp] theorem mk_sub_mk (ax ay bx bY : ℝ) :
    (⟨ax, ay⟩ - ⟨bx, bY⟩ : Vec) = ⟨ax - bx, ay - bY⟩ := rfl
@[simp] theorem mk_scale (ax ay s : ℝ) : ((⟨ax, ay⟩ : Vec) * s) = ⟨ax * s, ay * s⟩ := rfl

theorem ext_iff {a b : Vec} : a = b ↔ a.x = b.x ∧ a.y = b.y := by
  cases a; cases b; simp

@[simp] theorem add_zero (v : Vec) : v + 0 = v := by
  cases v; simp [ext_iff]

@[simp] theorem scale_zero (v : Vec) : v * (0 : ℝ) = 0 := by
  cases v; simp [ext_iff]

@[simp] theorem len2_mk (a b : ℝ) : len2 ⟨a, b⟩ = a * a + b * b := rfl

theorem len2_nonneg (v : Vec) : 0 ≤ v.len2 :=
  add_nonneg (mul_self_nonneg _) (mul_self_nonneg _)

@[simp] theorem len2_zero : len2 0 = 0 := by simp [len2, zero]

theorem len_eq_of_len2_eq_sq {v : Vec} {r : ℝ} (hr : 0 ≤ r) (h : v.len2 = r ^ 2) :
    v.len = r := by
  rw [len, h, Real.sqrt_sq hr]

end Vec

/-- Euclidean remainder on reals, modelling Rust's `f32::rem_euclid` for a
positive modulus: the representative of `x` modulo `m` in `[0, m)`. -/
noncomputable def remEuclid (x m : ℝ) : ℝ := x - m * ⌊x / m⌋

theorem remEuclid_eq_fract (x m : ℝ) (hm : m ≠ 0) :
    remEuclid x m = m * Int.fract (x / m) := by
  rw [remEuclid, Int.fract, mul_sub, mul_div_cancel₀ _ hm]

theorem remEuclid_nonneg (x m : ℝ) (hm : 0 < m) : 0 ≤ remEuclid x m := by
  rw [remEuclid_eq_fract x m hm.ne.symm]
  exact mul_nonneg hm.le (Int.fract_nonneg _)

theorem remEuclid_lt (x m : ℝ) (hm : 0 < m) : remEuclid x m < m := by
  rw [remEuclid_eq_fract x m hm.ne.symm]
  calc m * Int.fract (x / m) < m * 1 := by
        exact mul_lt_mul_of_pos_left (Int.fract_lt_one _) hm
    _ = m := mul_one m

theorem remEuclid_eq_self {x m : ℝ} (hm : 0 < m) (h0 : 0 ≤ x) (h1 : x < m) :
    remEuclid x m = x := by
  have : ⌊x / m⌋ = 0 := by
    rw [Int.floor_eq_zero_iff]
    constructor
    · exact div_nonneg h0 hm.le
    · rw [div_lt_one hm]; exact h1
  simp [remEuclid, this]

/-- The game-session state (`enum GameState`). -/
inductive GameState where
  | Started
  | Running
  | Paused
  | Won
deriving DecidableEq, Repr

/-- The pause-key handler (`GameState::toggle`). -/
def GameState.toggle : GameState → GameState
  | .Started => .Running
  | .Paused => .Running
  | .Running => .Paused
  | .Won => .Won

/-- One thruster entity (`struct Thruster`).  `ship` is the index of the parent
ship entity in the world's entity list; `rotTorque` models the `rotation` field
(the torque applied to the ship's `RotationSpeed`).  The `position`, `len` and
`direction` fields of the source are only used for drawing and are kept for
faithfulness. -/
structure Thruster where
  ship : Nat
  position : Vec
  direction : ℝ
  len : ℝ
  key : Nat
  pushDirection : ℝ
  push : ℝ
  rotTorque : ℝ

/-- One non-thruster entity, as a record of optional components: a field is
`none` when the entity does not carry that component.  `shipKey` is `some k`
when the entity carries `Ship { homing_key: k }`; `landing` is true when it
carries the `Landing` marker. -/
structure Ent where
  pos : Option Vec
  speed : Option Vec
  mass : Option ℝ
  rot : Option ℝ
  rotSpeed : Option ℝ
  shipKey : Option Nat
  landing : Bool

/-- The camera viewport's rectangle (`Viewport.rect`; the derived projection
transform is drawing-only and omitted). -/
structure Viewport where
  pos : Vec
  size : Vec

/-- The world: entities, thruster entities, and the shared resources
(`GameState`, `FrameDuration` in seconds, `DifficultyTimeMod`, the pressed-key
set, the `Viewport`). -/
structure World where
  ents : List Ent
  thrusters : List Thruster
  state : GameState
  frameDuration : ℝ
  difficulty : ℝ
  keys : List Nat
  viewport : Viewport

/-- The landing capture radius (`const LAND_DISTANCE: f32 = 25.0`). -/
def LAND_DISTANCE : ℝ := 25

/-- One inner-loop contribution of the `Gravity` system: the pull of a body of
mass `m2` at `p2` on the body of mass `m1` at `p1`.  Mirrors the closure inside
`Gravity::run`: zero when the squared separation is at or below
`closeness_limit`, otherwise the unit separation vector scaled by
`m1 * m2 / dist_sq`. -/
noncomputable def gravContrib (closenessLimit m1 : ℝ) (p1 : Vec) (m2 : ℝ) (p2 : Vec) : Vec :=
  let distEuclid := p2 - p1
  let distSq := distEuclid.len2
  if distSq ≤ closenessLimit then 0
  else distEuclid.normalize * (m1 * m2 / distSq)

/-- The `(masses, positions)` inner join of `Gravity::run`: the mass/position
pairs of all entities carrying both components. -/
def massPosPairs (ents : List Ent) : List (ℝ × Vec) :=
  ents.filterMap fun e =>
    match e.mass, e.pos with
    | some m, some p => some (m, p)
    | _, _ => none

/-- The `Gravity` system (`struct Gravity`, `force` and `closeness_limit`
fields): each entity with Mass, Position and Speed adds to its Speed the sum of
all inner-loop contributions, scaled by `force * Δt * difficulty`. -/
noncomputable def gravityRun (force closenessLimit : ℝ) (w : World) : World :=
  let multiplier := force * w.frameDuration * w.difficulty
  let others := massPosPairs w.ents
  { w with ents := w.ents.map fun e =>
      match e.mass, e.pos, e.speed with
      | some m1, some p1, some s =>
        let speedInc :=
          others.foldl (fun acc o => acc + gravContrib closenessLimit m1 p1 o.1 o.2) 0
        { e with speed := some (s + speedInc * multiplier) }
      | _, _, _ => e }

/-- The `Movement` system: `Position += Speed * (Δt * difficulty)` for every
entity carrying both Speed and Position. -/
def movementRun (w : World) : World :=
  let dur := w.frameDuration * w.difficulty
  { w with ents := w.ents.map fun e =>
      match e.speed, e.pos with
      | some s, some p => { e with pos := some (p + s * dur) }
      | _, _ => e }

/-- The `Rotate` system: `Rotation = (Rotation + RotationSpeed * (Δt *
difficulty)).rem_euclid(360)` for every entity carrying both RotationSpeed and
Rotation. -/
noncomputable def rotateRun (w : World) : World :=
  let dur := w.frameDuration * w.difficulty
  { w with ents := w.ents.map fun e =>
      match e.rotSpeed, e.rot with
      | some s, some r => { e with rot := some (remEuclid (r + s * dur) 360) }
      | _, _ => e }

/-- The thruster-hierarchy children of entity `i`: the thrusters whose parent
(`Thruster::ship`, via the `Parent` impl) is `i`. -/
def childrenOf (thrusters : List Thruster) (i : Nat) : List Thruster :=
  thrusters.filter fun t => t.ship = i

/-- The inner loop of `FireThrusters::run` for one ship: walk the ship's
thruster children and, for each one whose key is pressed, subtract
`from_angle(rotation + push_direction) * push * Δt` from the Speed and
`rotation_torque * Δt` from the RotationSpeed.  Note the source multiplies by
the raw frame duration only — `DifficultyTimeMod` is not read here. -/
noncomputable def fireShip (keys : List Nat) (dt rot : ℝ) :
    List Thruster → Vec × ℝ → Vec × ℝ
  | [], sr => sr
  | t :: rest, (sp, rs) =>
    fireShip keys dt rot rest <|
      if t.key ∈ keys then
        let rotated := rot + t.pushDirection
        let push := Vec.fromAngle rotated * t.push
        (sp - push * dt, rs - t.rotTorque * dt)
      else (sp, rs)

/-- `FireThrusters::run` on one entity of the outer join (ships with Rotation,
Speed and RotationSpeed); `i` is the entity's id. -/
noncomputable def fireEnt (thrusters : List Thruster) (keys : List Nat) (dt : ℝ)
    (i : Nat) (e : Ent) : Ent :=
  match e.shipKey, e.rot, e.speed, e.rotSpeed with
  | some _, some rot, some sp, some rs =>
    let res := fireShip keys dt rot (childrenOf thrusters i) (sp, rs)
    { e with speed := some res.1, rotSpeed := some res.2 }
  | _, _, _, _ => e

/-- `FireThrusters::run` over the entity list, threading the entity id. -/
noncomputable def fireEnts (thrusters : List Thruster) (keys : List Nat) (dt : ℝ) :
    Nat → List Ent → List Ent
  | _, [] => []
  | i, e :: rest => fireEnt thrusters keys dt i e :: fireEnts thrusters keys dt (i + 1) rest

/-- The `FireThrusters` system.  Its `SystemData` reads the frame duration, the
pressed keys, the thruster hierarchy and the thruster storage; it does not read
`DifficultyTimeMod`. -/
noncomputable def fireRun (w : World) : World :=
  { w with ents := fireEnts w.thrusters w.keys w.frameDuration 0 w.ents }

/-- Positions of all landing zones: the `(positions, landings)` join cached at
the top of `VictoryDetector::run`. -/
def landingPositions (ents : List Ent) : List Vec :=
  ents.filterMap fun e => if e.landing then e.pos else none

/-- The `won` condition of `VictoryDetector::run`: every entity of the
`(positions, ships)` join is within `LAND_DISTANCE` of some landing position. -/
def wonCond (ents : List Ent) : Prop :=
  ∀ e ∈ ents, e.shipKey.isSome → ∀ p, e.pos = some p →
    ∃ q ∈ landingPositions ents, Vec.dist p q ≤ LAND_DISTANCE

open Classical in
/-- The `VictoryDetector` system: set the game state to `Won` when `wonCond`
holds, otherwise leave the world untouched. -/
noncomputable def victoryRun (w : World) : World :=
  if wonCond w.ents then { w with state := GameState.Won } else w

/-- One entity's effect on the viewport in `Homing::run`: a ship whose homing
key is pressed recenters the viewport on its position. -/
noncomputable def homingStep (keys : List Nat) (vp : Viewport) (e : Ent) : Viewport :=
  match e.shipKey, e.pos with
  | some k, some p =>
    if k ∈ keys then { pos := p - vp.size / (2 : ℝ), size := vp.size } else vp
  | _, _ => vp

/-- The `Homing` system: fold `homingStep` over the `(ships, positions)` join. -/
noncomputable def homingRun (w : World) : World :=
  { w with viewport := w.ents.foldl (homingStep w.keys) w.viewport }

/-- The `UpdateDurations` system: publish the elapsed wall-clock time `dt` of
this tick as the shared `FrameDuration`. -/
def updateDurations (dt : ℝ) (w : World) : World := { w with frameDuration := dt }

/-- The gated physics group as built in `inner`: `Gravity { force: 1.0,
closeness_limit: 100.0 }`, then `FireThrusters`, then `Movement` (which depends
on both), with `Rotate` alongside.  Gravity and FireThrusters both write Speed
and are sequenced in registration order; Movement and Rotate touch disjoint
components. -/
noncomputable def physicsRun (w : World) : World :=
  rotateRun (movementRun (fireRun (gravityRun 1 100 w)))

/-- One `dispatch` of the tick pipeline built in `inner`: `UpdateDurations`
(and the hierarchy maintenance, a no-op in this model where children are
computed from the live parent references), then the physics group gated by
`PhysicsSystems::plan` (which selects the real group exactly when the game
state is `Running`), then `Homing` and `VictoryDetector`.  The thread-local
drawing systems read component state only and are omitted. -/
noncomputable def dispatch (dt : ℝ) (w : World) : World :=
  let w1 := updateDurations dt w
  let w2 := if w1.state = GameState.Running then physicsRun w1 else w1
  victoryRun (homingRun w2)

/-- Several consecutive ticks, with the elapsed time of each tick given by the
corresponding entry of `dts`. -/
noncomputable def dispatchMany (dts : List ℝ) (w : World) : World :=
  dts.foldl (fun w dt => dispatch dt w) w

/-! ### Vector algebra lemmas -/

namespace Vec

theorem add_assoc (a b c : Vec) : a + b + c = a + (b + c) := by
  cases a; cases b; cases c
  simp [ext_iff]
  constructor <;> ring

@[simp] theorem zero_add (v : Vec) : 0 + v = v := by
  cases v; simp [ext_iff]

@[simp] theorem sub_zero (v : Vec) : v - 0 = v := by
  cases v; simp [ext_iff]

@[simp] theorem sub_self (v : Vec) : v - v = 0 := by
  cases v; simp [ext_iff]

@[simp] theorem scale_one (v : Vec) : v * (1 : ℝ) = v := by
  cases v; simp [ext_iff]

theorem sub_sub (a b c : Vec) : a - b - c = a - (b + c) := by
  cases a; cases b; cases c
  simp [ext_iff]
  constructor <;> ring

theorem add_scale (a b : Vec) (s : ℝ) : (a + b) * s = a * s + b * s := by
  cases a; cases b
  simp [ext_iff]
  constructor <;> ring

theorem len2_sub_comm (a b : Vec) : (a - b).len2 = (b - a).len2 := by
  cases a; cases b
  simp [len2]
  ring

theorem len2_scale (v : Vec) (s : ℝ) : (v * s).len2 = v.len2 * s ^ 2 := by
  cases v; simp [len2]; ring

theorem len_scale (v : Vec) {s : ℝ} (hs : 0 ≤ s) : (v * s).len = v.len * s := by
  rw [len, len2_scale, Real.sqrt_mul (len2_nonneg v), Real.sqrt_sq hs, len]

theorem len2_div (v : Vec) (s : ℝ) : (v / s).len2 = v.len2 / s ^ 2 := by
  cases v; simp [len2, divScalar]
  ring

theorem len_normalize {v : Vec} (h : v.len2 ≠ 0) : v.normalize.len = 1 := by
  have hnn := len2_nonneg v
  have hlen2 : v.len ^ 2 = v.len2 := Real.sq_sqrt hnn
  rw [normalize, len, len2_div, hlen2, div_self h, Real.sqrt_one]

end Vec

/-- Sum of a list of vectors, folded from the left starting at zero (the shape
of the `fold(Vector::ZERO, |a, b| a + b)` in `Gravity::run`). -/
def vecSum (l : List Vec) : Vec := l.foldl (fun a b => a + b) 0

theorem foldl_add_acc (l : List Vec) (a b : Vec) :
    l.foldl (fun x y => x + y) (a + b) = a + l.foldl (fun x y => x + y) b := by
  induction l generalizing b with
  | nil => rfl
  | cons v t ih =>
    simp only [List.foldl_cons, Vec.add_assoc]
    exact ih (b + v)

theorem vecSum_cons (v : Vec) (l : List Vec) : vecSum (v :: l) = v + vecSum l := by
  have h := foldl_add_acc l v 0
  simpa [vecSum] using h

/-- The gravity inner fold equals the sum, over the pairs whose squared
separation exceeds the threshold, of the spec's per-pair pulls. -/
theorem gravity_fold_eq_vecSum (closenessLimit m1 : ℝ) (p1 : Vec)
    (others : List (ℝ × Vec)) (acc : Vec) :
    others.foldl (fun acc o => acc + gravContrib closenessLimit m1 p1 o.1 o.2) acc =
      acc + vecSum (((others.filter fun o => closenessLimit < (o.2 - p1).len2).map
        fun o => (o.2 - p1).normalize * (m1 * o.1 / (o.2 - p1).len2))) := by
  induction others generalizing acc with
  | nil => simp [vecSum]
  | cons o rest ih =>
    by_cases h : (o.2 - p1).len2 ≤ closenessLimit
    · have hc : gravContrib closenessLimit m1 p1 o.1 o.2 = 0 := by
        simp [gravContrib, h]
      rw [List.foldl_cons, hc, Vec.add_zero,
        List.filter_cons_of_neg (by simpa using not_lt.mpr h)]
      exact ih acc
    · have hc : gravContrib closenessLimit m1 p1 o.1 o.2 =
          (o.2 - p1).normalize * (m1 * o.1 / (o.2 - p1).len2) := by
        simp [gravContrib, h]
      have ht : closenessLimit < (o.2 - p1).len2 := not_le.mp h
      rw [List.foldl_cons, hc, List.filter_cons_of_pos (by simpa using ht),
        List.map_cons, vecSum_cons, ih, ← Vec.add_assoc]

/-- Modelled on the spec's (amended) words for the gravity speed update: the
sum, over all mass/position pairs whose squared separation from `p1` exceeds the
threshold, of pulls of magnitude `m1 * m2 / |d|²` along the unit vector of `d`,
the whole sum scaled by `force * Δt * difficulty`. -/
noncomputable def specSpeedDelta (force closenessLimit dt diff m1 : ℝ) (p1 : Vec)
    (others : List (ℝ × Vec)) : Vec :=
  vecSum ((others.filter fun o => closenessLimit < (o.2 - p1).len2).map
      fun o => (o.2 - p1).normalize * (m1 * o.1 / (o.2 - p1).len2))
    * (force * dt * diff)

/-- Modelled on claim C1's words exactly as stated: per-pair pulls of magnitude
`G * m1 * m2 / |d|²` (the gravitational constant appearing inside each
contribution), the sum then scaled by `G * Δt * difficulty` (the constant
appearing a second time). -/
noncomputable def claimSpeedDelta (force closenessLimit dt diff m1 : ℝ) (p1 : Vec)
    (others : List (ℝ × Vec)) : Vec :=
  vecSum ((others.filter fun o => closenessLimit < (o.2 - p1).len2).map
      fun o => (o.2 - p1).normalize * (force * m1 * o.1 / (o.2 - p1).len2))
    * (force * dt * diff)

/-- The whole gravity step as claim C1 states it, built from `claimSpeedDelta`. -/
noncomputable def claimGravityRun (force closenessLimit : ℝ) (w : World) : World :=
  { w with ents := w.ents.map fun e =>
      match e.mass, e.pos, e.speed with
      | some m1, some p1, some s =>
        { e with speed := some (s + claimSpeedDelta force closenessLimit
            w.frameDuration w.difficulty m1 p1 (massPosPairs w.ents)) }
      | _, _, _ => e }

/-! ### Concrete worlds used in counterexamples and witnesses -/

/-- An entity carrying no components at all. -/
def blankEnt : Ent :=
  { pos := none, speed := none, mass := none, rot := none, rotSpeed := none,
    shipKey := none, landing := false }

/-- A degenerate viewport. -/
def vp0 : Viewport := { pos := ⟨0, 0⟩, size := ⟨0, 0⟩ }

/-- Two unit masses one distance unit apart, at rest, with `Δt = 1` and
difficulty `1`. -/
def twoUnitWorld : World :=
  { ents := [{ blankEnt with mass := some 1, pos := some ⟨0, 0⟩, speed := some ⟨0, 0⟩ },
             { blankEnt with mass := some 1, pos := some ⟨1, 0⟩, speed := some ⟨0, 0⟩ }],
    thrusters := [], state := GameState.Running, frameDuration := 1, difficulty := 1,
    keys := [], viewport := vp0 }

end Thrust

namespace Thrust

/-- C1 (amended): for every tick on which the physics group runs, the Gravity
step updates the Speed of every entity carrying Mass, Position and Speed by:
summing, over all entities with Mass and Position whose squared separation from
it exceeds the closeness threshold, contributions of magnitude
`m_self * m_other / |d|²` directed along the unit vector of `d`, then scaling
that sum by `G * Δt * difficulty`, and adding the result to the entity's Speed
(the gravitational constant enters once, through the scale factor only). -/
theorem gravity_matches_spec (force closenessLimit : ℝ) (w : World) :
    (gravityRun force closenessLimit w).ents = w.ents.map fun e =>
      match e.mass, e.pos, e.speed with
      | some m1, some p1, some s =>
        { e with speed := some (s + specSpeedDelta force closenessLimit
            w.frameDuration w.difficulty m1 p1 (massPosPairs w.ents)) }
      | _, _, _ => e := by
  unfold gravityRun
  apply List.map_congr_left
  intro e _
  cases hm : e.mass with
  | none => rfl
  | some m1 =>
    cases hp : e.pos with
    | none => rfl
    | some p1 =>
      cases hs : e.speed with
      | none => rfl
      | some s =>
        have hfold := gravity_fold_eq_vecSum closenessLimit m1 p1 (massPosPairs w.ents) 0
        rw [Vec.zero_add] at hfold
        simp only [hfold, specSpeedDelta]

/-- C1 (counterexample): with gravitational constant `G = 2` and closeness
threshold `0`, the code's gravity step gives each of two unit masses one unit
apart a speed change of magnitude `2` (= `G·m₁·m₂/|d|²·Δt·difficulty`), while
the claim's formula — `G` inside each contribution and again in the scale —
predicts magnitude `4`. -/
theorem gravity_double_G_counterexample :
    (gravityRun 2 0 twoUnitWorld).ents.map Ent.speed =
      [some ⟨2, 0⟩, some ⟨(-2 : ℝ), 0⟩] ∧
    (claimGravityRun 2 0 twoUnitWorld).ents.map Ent.speed =
      [some ⟨4, 0⟩, some ⟨(-4 : ℝ), 0⟩] ∧
    some ((⟨2, 0⟩ : Vec)) ≠ some ((⟨4, 0⟩ : Vec)) := by
  refine ⟨?_, ?_, ?_⟩
  · norm_num [gravityRun, massPosPairs, gravContrib, twoUnitWorld,
      blankEnt, vp0, Vec.normalize, Vec.len, Vec.len2, Vec.divScalar, Vec.ext_iff,
      Real.sqrt_one, vecSum, List.filterMap_cons, List.filterMap_nil,
      List.foldl_cons, List.foldl_nil, List.map_cons, List.map_nil]
  · norm_num [claimGravityRun, claimSpeedDelta, massPosPairs, gravContrib,
      twoUnitWorld, blankEnt, vp0, Vec.normalize, Vec.len, Vec.len2, Vec.divScalar,
      Vec.ext_iff, Real.sqrt_one, vecSum, List.filterMap_cons, List.filterMap_nil,
      List.foldl_cons, List.foldl_nil, List.map_cons, List.map_nil,
      List.filter_cons, List.filter_nil]
  · intro h
    rw [Option.some_inj, Vec.ext_iff] at h
    norm_num at h

/-- The spec's two-body scenario: masses 8 and 10 at `p1` and `p2` with initial
speeds `sA` and `sB`, gravitational constant 1, `Δt = 1`, difficulty 1. -/
def twoBodyWorld (p1 p2 sA sB : Vec) : World :=
  { ents := [{ blankEnt with mass := some 8, pos := some p1, speed := some sA },
             { blankEnt with mass := some 10, pos := some p2, speed := some sB }],
    thrusters := [], state := GameState.Running, frameDuration := 1, difficulty := 1,
    keys := [], viewport := vp0 }

/-- C2: in the two-body scenario (masses 8 and 10 separated by distance 50,
`G = 1`, `Δt = 1`, difficulty 1, squared separation 2500 above the closeness
threshold `c ≥ 0`), one run of the gravity step changes each body's speed by
exactly `G·m₁·m₂/50² = 0.032` in magnitude, directed along the unit vector
from itself toward the other body. -/
theorem two_body_scenario (c : ℝ) (hc0 : 0 ≤ c) (hc : c < 2500) (p1 p2 sA sB : Vec)
    (h : (p2 - p1).len2 = 2500) :
    (gravityRun 1 c (twoBodyWorld p1 p2 sA sB)).ents.map Ent.speed =
      [some (sA + Vec.normalize (p2 - p1) * (0.032 : ℝ)),
       some (sB + Vec.normalize (p1 - p2) * (0.032 : ℝ))] ∧
    (Vec.normalize (p2 - p1) * (0.032 : ℝ)).len = 0.032 ∧
    (Vec.normalize (p1 - p2) * (0.032 : ℝ)).len = 0.032 := by
  have h21 : (p1 - p2).len2 = 2500 := by rw [Vec.len2_sub_comm]; exact h
  have hnle : ¬ ((2500 : ℝ) ≤ c) := not_le.mpr hc
  have hself1 : gravContrib c 8 p1 8 p1 = 0 := by
    simp [gravContrib, hc0]
  have hself2 : gravContrib c 10 p2 10 p2 = 0 := by
    simp [gravContrib, hc0]
  have hAB : gravContrib c 8 p1 10 p2 = Vec.normalize (p2 - p1) * (0.032 : ℝ) := by
    simp only [gravContrib, h]
    rw [if_neg hnle]
    norm_num
  have hBA : gravContrib c 10 p2 8 p1 = Vec.normalize (p1 - p2) * (0.032 : ℝ) := by
    simp only [gravContrib, h21]
    rw [if_neg hnle]
    norm_num
  have hmp : massPosPairs (twoBodyWorld p1 p2 sA sB).ents = [(8, p1), (10, p2)] := rfl
  have hents : (twoBodyWorld p1 p2 sA sB).ents =
      [{ blankEnt with mass := some 8, pos := some p1, speed := some sA },
       { blankEnt with mass := some 10, pos := some p2, speed := some sB }] := rfl
  refine ⟨?_, ?_, ?_⟩
  · simp only [gravityRun, hmp]
    rw [hents]
    simp only [List.map_cons, List.map_nil, List.foldl_cons, List.foldl_nil, blankEnt]
    norm_num [hself1, hself2, hAB, hBA, twoBodyWorld]
  · rw [Vec.len_scale _ (by norm_num : (0 : ℝ) ≤ 0.032),
      Vec.len_normalize (by rw [h]; norm_num)]
    norm_num
  · rw [Vec.len_scale _ (by norm_num : (0 : ℝ) ≤ 0.032),
      Vec.len_normalize (by rw [h21]; norm_num)]
    norm_num

/-- C2 witness: the scenario at concrete points `(0,0)` and `(50,0)` with both
bodies initially at rest and the source's closeness threshold 100. -/
theorem two_body_scenario_witness :
    ((0 : ℝ) ≤ 100 ∧ (100 : ℝ) < 2500 ∧
      (((⟨50, 0⟩ : Vec) - ⟨0, 0⟩).len2 = 2500)) ∧
    (gravityRun 1 100 (twoBodyWorld ⟨0, 0⟩ ⟨50, 0⟩ ⟨0, 0⟩ ⟨0, 0⟩)).ents.map Ent.speed =
      [some ((⟨0, 0⟩ : Vec) + Vec.normalize ((⟨50, 0⟩ : Vec) - ⟨0, 0⟩) * (0.032 : ℝ)),
       some ((⟨0, 0⟩ : Vec) + Vec.normalize ((⟨0, 0⟩ : Vec) - ⟨50, 0⟩) * (0.032 : ℝ))] ∧
    (Vec.normalize ((⟨50, 0⟩ : Vec) - ⟨0, 0⟩) * (0.032 : ℝ)).len = 0.032 := by
  have hlen : ((⟨50, 0⟩ : Vec) - ⟨0, 0⟩).len2 = 2500 := by
    norm_num [Vec.len2]
  have hmain := two_body_scenario 100 (by norm_num) (by norm_num) ⟨0, 0⟩ ⟨50, 0⟩
    ⟨0, 0⟩ ⟨0, 0⟩ hlen
  exact ⟨⟨by norm_num, by norm_num, hlen⟩, hmain.1, hmain.2.1⟩

/-- C9: with a closeness threshold `≥ 0`, every pair at or below the threshold
contributes exactly the zero vector, in particular each body's contribution to
itself is exactly zero; and in the remaining branch the squared separation (the
divisor) and the separation length (the divisor inside `normalize`) are both
nonzero, so no division by zero is ever evaluated. -/
theorem gravity_closeness_safety (closenessLimit : ℝ) (hlim : 0 ≤ closenessLimit) :
    (∀ (m1 m2 : ℝ) (p : Vec), gravContrib closenessLimit m1 p m2 p = 0) ∧
    (∀ (m1 m2 : ℝ) (p1 p2 : Vec), (p2 - p1).len2 ≤ closenessLimit →
      gravContrib closenessLimit m1 p1 m2 p2 = 0) ∧
    (∀ p1 p2 : Vec, ¬ ((p2 - p1).len2 ≤ closenessLimit) →
      (p2 - p1).len2 ≠ 0 ∧ (p2 - p1).len ≠ 0) := by
  refine ⟨?_, ?_, ?_⟩
  · intro m1 m2 p
    simp [gravContrib, hlim]
  · intro m1 m2 p1 p2 hle
    simp [gravContrib, hle]
  · intro p1 p2 hgt
    have hpos : 0 < (p2 - p1).len2 := lt_of_le_of_lt hlim (not_le.mp hgt)
    refine ⟨ne_of_gt hpos, ?_⟩
    rw [Vec.len]
    exact ne_of_gt (Real.sqrt_pos.mpr hpos)

/-- C9 witness: the source's threshold 100, a self-pair, a pair at squared
separation 25 (below threshold), and a pair at squared separation 2500. -/
theorem gravity_closeness_safety_witness :
    ((0 : ℝ) ≤ 100) ∧
    gravContrib 100 8 ⟨3, 4⟩ 10 ⟨3, 4⟩ = 0 ∧
    gravContrib 100 8 ⟨0, 0⟩ 10 ⟨3, 4⟩ = 0 ∧
    (((⟨50, 0⟩ : Vec) - ⟨0, 0⟩).len2 ≠ 0 ∧ ((⟨50, 0⟩ : Vec) - ⟨0, 0⟩).len ≠ 0) := by
  have hm := gravity_closeness_safety 100 (by norm_num)
  exact ⟨by norm_num, hm.1 8 10 ⟨3, 4⟩,
    hm.2.1 8 10 ⟨0, 0⟩ ⟨3, 4⟩ (by norm_num [Vec.len2]),
    hm.2.2 ⟨0, 0⟩ ⟨50, 0⟩ (by norm_num [Vec.len2])⟩

/-- Replacing an entity's position component by the value it already holds is
the identity. -/
theorem Ent.withPos_self (e : Ent) {p : Vec} (h : e.pos = some p) :
    ({ e with pos := some p } : Ent) = e := by
  cases e
  cases h
  rfl

/-- Replacing an entity's rotation component by the value it already holds is
the identity. -/
theorem Ent.withRot_self (e : Ent) {r : ℝ} (h : e.rot = some r) :
    ({ e with rot := some r } : Ent) = e := by
  cases e
  cases h
  rfl

/-- Mapping a function that fixes every member of a list is the identity. -/
theorem map_self (l : List Ent) (f : Ent → Ent) (h : ∀ e ∈ l, f e = e) :
    l.map f = l := by
  induction l with
  | nil => rfl
  | cons a t ih =>
    rw [List.map_cons, h a (by simp), ih (fun e he => h e (by simp [he]))]

/-- C7: after the rotation-integration step runs, the Rotation of every entity
that carries a RotationSpeed lies in `[0, 360)`, for any input rotation and any
product of rotation speed, frame duration and difficulty. -/
theorem rotate_normalizes (w : World) (e : Ent) (he : e ∈ (rotateRun w).ents)
    (hs : e.rotSpeed.isSome) (r : ℝ) (hr : e.rot = some r) :
    0 ≤ r ∧ r < 360 := by
  simp only [rotateRun, List.mem_map] at he
  obtain ⟨e0, -, rfl⟩ := he
  cases h1 : e0.rotSpeed with
  | none => simp [h1] at hs
  | some s =>
    cases h2 : e0.rot with
    | none => simp [h1, h2] at hr
    | some r0 =>
      simp only [h1, h2] at hr
      rw [Option.some_inj] at hr
      rw [← hr]
      exact ⟨remEuclid_nonneg _ _ (by norm_num), remEuclid_lt _ _ (by norm_num)⟩

/-- A world holding one steerable entity with the unnormalized rotation 400. -/
def rotWitnessWorld : World :=
  { ents := [{ blankEnt with rot := some 400, rotSpeed := some 7 }],
    thrusters := [], state := GameState.Running, frameDuration := 3, difficulty := 2,
    keys := [], viewport := vp0 }

/-- The single entity of `rotWitnessWorld` after one rotation step. -/
noncomputable def rotOutEnt : Ent :=
  { blankEnt with
    rot := some (remEuclid (400 + 7 * (3 * 2)) 360)
    rotSpeed := some 7 }

/-- C7 witness: integrating rotation 400 at speed 7 over `Δt·difficulty = 6`
lands in `[0, 360)`. -/
theorem rotate_normalizes_witness :
    0 ≤ remEuclid (400 + 7 * (3 * 2)) 360 ∧ remEuclid (400 + 7 * (3 * 2)) 360 < 360 := by
  have hmem : rotOutEnt ∈ (rotateRun rotWitnessWorld).ents := by
    show rotOutEnt ∈ [rotOutEnt]
    exact List.mem_singleton.mpr rfl
  exact rotate_normalizes rotWitnessWorld _ hmem (by simp [rotOutEnt, blankEnt]) _ rfl

/-- C8 (amended): with `Δt = 0` the Movement step leaves every Position
unchanged for all component values, and the Rotate step leaves every Rotation
unchanged provided each Rotation already lies in `[0, 360)` — i.e. is already
normalized (an out-of-range rotation is normalized into `[0, 360)` even when
`Δt = 0`, because `rem_euclid` is applied unconditionally). -/
theorem dt_zero_steps_identity (w : World) (hdt : w.frameDuration = 0)
    (hrot : ∀ e ∈ w.ents, ∀ r, e.rot = some r → 0 ≤ r ∧ r < 360) :
    movementRun w = w ∧ rotateRun w = w := by
  constructor
  · have key : w.ents.map (fun e =>
        match e.speed, e.pos with
        | some s, some p => { e with pos := some (p + s * (w.frameDuration * w.difficulty)) }
        | _, _ => e) = w.ents := by
      apply map_self
      intro e _
      cases hsp : e.speed with
      | none => rfl
      | some s =>
        cases hp : e.pos with
        | none => rfl
        | some p =>
          simp only [hdt, zero_mul, Vec.scale_zero, Vec.add_zero]
          rw [← hsp, ← hp]
    simp only [movementRun, key]
  · have key : w.ents.map (fun e =>
        match e.rotSpeed, e.rot with
        | some s, some r => { e with rot := some (remEuclid (r + s * (w.frameDuration * w.difficulty)) 360) }
        | _, _ => e) = w.ents := by
      apply map_self
      intro e he
      cases hsp : e.rotSpeed with
      | none => rfl
      | some s =>
        cases hp : e.rot with
        | none => rfl
        | some r =>
          have hb := hrot e he r hp
          simp only [hdt, zero_mul, mul_zero, add_zero]
          rw [remEuclid_eq_self (by norm_num) hb.1 hb.2, ← hsp, ← hp]
    simp only [rotateRun, key]

/-- A world with one movable, steerable entity whose rotation is already
normalized, observed at a tick of elapsed time zero. -/
def normalizedWorld : World :=
  { ents := [{ blankEnt with
               pos := some ⟨1, 2⟩
               speed := some ⟨3, 4⟩
               rot := some 60
               rotSpeed := some 5 }],
    thrusters := [], state := GameState.Running, frameDuration := 0, difficulty := 7,
    keys := [], viewport := vp0 }

/-- C8 witness: on `normalizedWorld`, whose frame duration is zero and whose
only rotation is 60, both integrators are the identity. -/
theorem dt_zero_steps_identity_witness :
    normalizedWorld.frameDuration = 0 ∧
    (movementRun normalizedWorld = normalizedWorld ∧
      rotateRun normalizedWorld = normalizedWorld) := by
  refine ⟨rfl, dt_zero_steps_identity normalizedWorld rfl ?_⟩
  intro e he r hr
  simp only [normalizedWorld, List.mem_singleton] at he
  subst he
  simp only [blankEnt] at hr
  rw [Option.some_inj] at hr
  rw [← hr]
  norm_num

/-- A world with one steerable entity holding the unnormalized rotation 400,
with elapsed time zero. -/
def unnormalizedRotWorld : World :=
  { ents := [{ blankEnt with rot := some 400, rotSpeed := some 0 }],
    thrusters := [], state := GameState.Running, frameDuration := 0, difficulty := 1,
    keys := [], viewport := vp0 }

/-- C8 (counterexample): with `Δt = 0` the Rotate step does not leave every
Rotation value unchanged — a rotation of 400 becomes 40, because the step
normalizes by `rem_euclid(360)` unconditionally. -/
theorem dt_zero_rotate_counterexample :
    unnormalizedRotWorld.frameDuration = 0 ∧
    (rotateRun unnormalizedRotWorld).ents.map Ent.rot = [some 40] ∧
    unnormalizedRotWorld.ents.map Ent.rot = [some 400] ∧
    (40 : ℝ) ≠ 400 := by
  have hfl : ⌊(400 : ℝ) / 360⌋ = 1 := by
    rw [Int.floor_eq_iff]
    constructor <;> norm_num
  refine ⟨rfl, ?_, by simp [unnormalizedRotWorld, blankEnt], by norm_num⟩
  simp only [rotateRun, unnormalizedRotWorld, blankEnt, List.map_cons, List.map_nil]
  norm_num [remEuclid, hfl]

@[simp] theorem Vec.zero_scale (s : ℝ) : (0 : Vec) * s = 0 := by
  simp [Vec.ext_iff]

/-- Closed form of the `FireThrusters` inner loop: walking a ship's thruster
list subtracts, from the ship's Speed, `Δt` times the sum of the active
thrusters' push vectors, and from its RotationSpeed, `Δt` times the sum of
their torques. -/
theorem fireShip_closed_form (keys : List Nat) (dt rot : ℝ) (ts : List Thruster)
    (sp : Vec) (rs : ℝ) :
    fireShip keys dt rot ts (sp, rs) =
      (sp - vecSum ((ts.filter fun t => t.key ∈ keys).map
          fun t => Vec.fromAngle (rot + t.pushDirection) * t.push) * dt,
       rs - ((ts.filter fun t => t.key ∈ keys).map Thruster.rotTorque).sum * dt) := by
  induction ts generalizing sp rs with
  | nil => simp [fireShip, vecSum]
  | cons t ts ih =>
    by_cases hk : t.key ∈ keys
    · rw [List.filter_cons_of_pos (by simpa using hk), List.map_cons, List.map_cons,
        vecSum_cons, List.sum_cons]
      simp only [fireShip, if_pos hk]
      rw [ih]
      simp only [Prod.mk.injEq]
      constructor
      · rw [Vec.sub_sub, Vec.add_scale]
      · ring
    · rw [List.filter_cons_of_neg (by simpa using hk)]
      simp only [fireShip, if_neg hk]
      exact ih sp rs

/-- C6 (amended): the thruster-firing step does not read `DifficultyTimeMod` at
all — its output entities are identical for any two difficulty values — and the
Speed and RotationSpeed changes it applies to a ship are `Δt` times the sum of
the active thrusters' push vectors (at angle rotation + push direction) and
torques, respectively: linear in the raw frame duration only, while gravity,
movement and rotation additionally scale by the difficulty multiplier. -/
theorem fireThrusters_no_difficulty (w : World) (c : ℝ) :
    (fireRun { w with difficulty := c }).ents = (fireRun w).ents ∧
    ∀ (i : Nat) (e : Ent) (k : Nat) (rot : ℝ) (sp : Vec) (rs : ℝ),
      e.shipKey = some k → e.rot = some rot → e.speed = some sp → e.rotSpeed = some rs →
      fireEnt w.thrusters w.keys w.frameDuration i e =
        { e with
          speed := some (sp - vecSum (((childrenOf w.thrusters i).filter
              fun t => t.key ∈ w.keys).map
              fun t => Vec.fromAngle (rot + t.pushDirection) * t.push) * w.frameDuration)
          rotSpeed := some (rs - (((childrenOf w.thrusters i).filter
              fun t => t.key ∈ w.keys).map Thruster.rotTorque).sum * w.frameDuration) } := by
  constructor
  · rfl
  · intro i e k rot sp rs h1 h2 h3 h4
    simp only [fireEnt, h1, h2, h3, h4, fireShip_closed_form]

/-- A ship entity at rotation 0 with zero speed and zero rotation speed. -/
def fireShipEnt : Ent :=
  { blankEnt with
    shipKey := some 9
    rot := some 0
    speed := some ⟨0, 0⟩
    rotSpeed := some 0 }

/-- A one-ship, one-thruster world: the thruster is mounted on entity 0, its
key 5 is pressed, it pushes with magnitude 0 and torque 6; `Δt = 1`,
difficulty 1. -/
def fireCounterWorld : World :=
  { ents := [fireShipEnt],
    thrusters := [{ ship := 0, position := ⟨0, 0⟩, direction := 0, len := 0,
                    key := 5, pushDirection := 0, push := 0, rotTorque := 6 }],
    state := GameState.Running, frameDuration := 1, difficulty := 1,
    keys := [5], viewport := vp0 }

/-- C6 (counterexample): doubling the difficulty multiplier does not double the
RotationSpeed change applied by the thruster-firing step — the change is `-6`
(torque 6 times `Δt = 1`) at difficulty 1 and still `-6` at difficulty 2,
where the claim predicts `-12`. -/
theorem fireThrusters_difficulty_counterexample :
    (fireRun { fireCounterWorld with difficulty := 2 }).ents.map Ent.rotSpeed =
      [some (-6 : ℝ)] ∧
    (fireRun fireCounterWorld).ents.map Ent.rotSpeed = [some (-6 : ℝ)] ∧
    (-6 : ℝ) ≠ 2 * (-6) := by
  refine ⟨?_, ?_, by norm_num⟩ <;>
    norm_num [fireRun, fireEnts, fireEnt, fireShip, childrenOf, fireCounterWorld,
      fireShipEnt, blankEnt, List.filter_cons, List.map_cons]

/-- C6 witness: the amended statement instantiated on `fireCounterWorld` at
difficulty 3, ship entity 0. -/
theorem fireThrusters_no_difficulty_witness :
    (fireRun { fireCounterWorld with difficulty := 3 }).ents = (fireRun fireCounterWorld).ents ∧
    fireEnt fireCounterWorld.thrusters fireCounterWorld.keys fireCounterWorld.frameDuration
        0 fireShipEnt =
      { fireShipEnt with
        speed := some ((⟨0, 0⟩ : Vec) - vecSum (((childrenOf fireCounterWorld.thrusters 0).filter
            fun t => t.key ∈ fireCounterWorld.keys).map
            fun t => Vec.fromAngle (0 + t.pushDirection) * t.push) * fireCounterWorld.frameDuration)
        rotSpeed := some ((0 : ℝ) - (((childrenOf fireCounterWorld.thrusters 0).filter
            fun t => t.key ∈ fireCounterWorld.keys).map
            Thruster.rotTorque).sum * fireCounterWorld.frameDuration) } := by
  have h := fireThrusters_no_difficulty fireCounterWorld 3
  exact ⟨h.1, h.2 0 fireShipEnt 9 0 ⟨0, 0⟩ 0 rfl rfl rfl rfl⟩

/-! ### Facts about the tick pipeline -/

theorem victoryRun_ents (w : World) : (victoryRun w).ents = w.ents := by
  unfold victoryRun
  by_cases h : wonCond w.ents
  · rw [if_pos h]
  · rw [if_neg h]

theorem victoryRun_state_cases (w : World) :
    (victoryRun w).state = GameState.Won ∨ (victoryRun w).state = w.state := by
  unfold victoryRun
  by_cases h : wonCond w.ents
  · left
    rw [if_pos h]
  · right
    rw [if_neg h]

theorem homingRun_ents (w : World) : (homingRun w).ents = w.ents := rfl

theorem homingRun_state (w : World) : (homingRun w).state = w.state := rfl

/-- A tick dispatched while the game state is anything but `Running` skips the
whole physics group: the entity list is byte-for-byte unchanged, and the state
stays in the non-`Running` region (the victory detector can only move it to
`Won`). -/
theorem dispatch_of_not_running (dt : ℝ) (w : World) (h : w.state ≠ GameState.Running) :
    (dispatch dt w).ents = w.ents ∧ (dispatch dt w).state ≠ GameState.Running := by
  have hcond : ¬ ((updateDurations dt w).state = GameState.Running) := h
  simp only [dispatch]
  rw [if_neg hcond]
  constructor
  · rw [victoryRun_ents]
    rfl
  · rcases victoryRun_state_cases (homingRun (updateDurations dt w)) with hv | hv
    · rw [hv]
      decide
    · rw [hv]
      exact h

/-- Iterating `dispatch` from a non-`Running` state never touches the entity
list and never reaches `Running`. -/
theorem dispatchMany_of_not_running (dts : List ℝ) (w : World)
    (h : w.state ≠ GameState.Running) :
    (dispatchMany dts w).ents = w.ents ∧
    (dispatchMany dts w).state ≠ GameState.Running := by
  induction dts generalizing w with
  | nil => exact ⟨rfl, h⟩
  | cons dt dts ih =>
    have h1 := dispatch_of_not_running dt w h
    have h2 := ih (dispatch dt w) h1.2
    exact ⟨h2.1.trans h1.1, h2.2⟩

/-- C3: while the game state is `Paused`, dispatching any number of consecutive
ticks (with arbitrary elapsed times) leaves every Position, Speed and Rotation
value unchanged: the gated physics group is skipped entirely and the skipped
steps have no observable effect. -/
theorem paused_ticks_frozen (w : World) (h : w.state = GameState.Paused) (dts : List ℝ) :
    (dispatchMany dts w).ents.map Ent.pos = w.ents.map Ent.pos ∧
    (dispatchMany dts w).ents.map Ent.speed = w.ents.map Ent.speed ∧
    (dispatchMany dts w).ents.map Ent.rot = w.ents.map Ent.rot := by
  have hne : w.state ≠ GameState.Running := by
    rw [h]
    decide
  rw [(dispatchMany_of_not_running dts w hne).1]
  exact ⟨rfl, rfl, rfl⟩

/-- C5: `Won` is terminal — the pause-key toggle maps it to itself, a further
run of the victory detector leaves it `Won`, and any number of further ticks
leaves it `Won`. -/
theorem won_terminal (w : World) (h : w.state = GameState.Won) :
    GameState.toggle w.state = GameState.Won ∧
    (victoryRun w).state = GameState.Won ∧
    ∀ dts : List ℝ, (dispatchMany dts w).state = GameState.Won := by
  have hvic : ∀ u : World, u.state = GameState.Won →
      (victoryRun u).state = GameState.Won := by
    intro u hu
    rcases victoryRun_state_cases u with hv | hv
    · exact hv
    · rw [hv]
      exact hu
  refine ⟨by rw [h]; rfl, hvic w h, ?_⟩
  have hdisp : ∀ (dt : ℝ) (u : World), u.state = GameState.Won →
      (dispatch dt u).state = GameState.Won := by
    intro dt u hu
    have hcond : ¬ ((updateDurations dt u).state = GameState.Running) := by
      show ¬ (u.state = GameState.Running)
      rw [hu]
      decide
    simp only [dispatch]
    rw [if_neg hcond]
    exact hvic _ hu
  intro dts
  induction dts generalizing w with
  | nil => exact h
  | cons dt dts ih => exact ih (dispatch dt w) (hdisp dt w h)

/-- C4: one run of the victory detector puts the game state at `Won` exactly
when the win condition holds (or it was `Won` already), and when the win
condition fails the whole world is left unchanged. -/
theorem victory_iff (w : World) :
    ((victoryRun w).state = GameState.Won ↔
      (wonCond w.ents ∨ w.state = GameState.Won)) ∧
    (¬ wonCond w.ents → victoryRun w = w) := by
  by_cases h : wonCond w.ents
  · constructor
    · unfold victoryRun
      rw [if_pos h]
      simp [h]
    · intro hn
      exact absurd h hn
  · have he : victoryRun w = w := by
      unfold victoryRun
      rw [if_neg h]
    rw [he]
    simp [h]

/-- C10: the victory detector runs on every dispatch regardless of the game
state — on a tick entered in `Paused` or `Started`, a satisfied win condition
still moves the state to `Won`, while the entity list is untouched because no
physics step ran. -/
theorem victory_while_paused (dt : ℝ) (w : World)
    (h : w.state = GameState.Paused ∨ w.state = GameState.Started)
    (hwin : wonCond w.ents) :
    (dispatch dt w).state = GameState.Won ∧ (dispatch dt w).ents = w.ents := by
  have hne : w.state ≠ GameState.Running := by
    rcases h with h | h <;> rw [h] <;> decide
  refine ⟨?_, (dispatch_of_not_running dt w hne).1⟩
  have hcond : ¬ ((updateDurations dt w).state = GameState.Running) := hne
  simp only [dispatch]
  rw [if_neg hcond]
  have hents : (homingRun (updateDurations dt w)).ents = w.ents := rfl
  unfold victoryRun
  rw [if_pos (by rw [hents]; exact hwin)]

/-! ### Victory scenarios from the spec -/

/-- The landing zone at `(600, 300)`. -/
def landEnt : Ent := { blankEnt with pos := some ⟨600, 300⟩, landing := true }

/-- A ship at distance 10 from the landing zone. -/
def shipNearEnt : Ent := { blankEnt with pos := some ⟨610, 300⟩, shipKey := some 0 }

/-- A ship at distance 30 from the landing zone. -/
def shipFarEnt : Ent := { blankEnt with pos := some ⟨630, 300⟩, shipKey := some 0 }

/-- Landing at `(600,300)`, ship at distance 10. -/
def winEnts : List Ent := [landEnt, shipNearEnt]

/-- Landing at `(600,300)`, ship at distance 30. -/
def loseEnts : List Ent := [landEnt, shipFarEnt]

theorem dist_near : Vec.dist ⟨610, 300⟩ ⟨600, 300⟩ = 10 := by
  show ((⟨610, 300⟩ : Vec) - ⟨600, 300⟩).len = 10
  apply Vec.len_eq_of_len2_eq_sq (by norm_num)
  norm_num [Vec.len2]

theorem dist_far : Vec.dist ⟨630, 300⟩ ⟨600, 300⟩ = 30 := by
  show ((⟨630, 300⟩ : Vec) - ⟨600, 300⟩).len = 30
  apply Vec.len_eq_of_len2_eq_sq (by norm_num)
  norm_num [Vec.len2]

theorem wonCond_winEnts : wonCond winEnts := by
  intro e he hk p hp
  simp only [winEnts, List.mem_cons, List.not_mem_nil, or_false] at he
  rcases he with rfl | rfl
  · simp [landEnt, blankEnt] at hk
  · refine ⟨⟨600, 300⟩, ?_, ?_⟩
    · show (⟨600, 300⟩ : Vec) ∈ [(⟨600, 300⟩ : Vec)]
      exact List.mem_singleton.mpr rfl
    · have hp' : (⟨610, 300⟩ : Vec) = p := by
        have hp2 : some (⟨610, 300⟩ : Vec) = some p := hp
        exact Option.some_inj.mp hp2
      rw [← hp', dist_near, LAND_DISTANCE]
      norm_num

theorem not_wonCond_loseEnts : ¬ wonCond loseEnts := by
  intro h
  obtain ⟨q, hq, hd⟩ := h shipFarEnt (by simp [loseEnts]) rfl ⟨630, 300⟩ rfl
  have hq' : q = ⟨600, 300⟩ := by
    have hl : landingPositions loseEnts = [(⟨600, 300⟩ : Vec)] := rfl
    rw [hl] at hq
    exact List.mem_singleton.mp hq
  subst hq'
  rw [dist_far, LAND_DISTANCE] at hd
  norm_num at hd

/-- The win scenario as a world, dispatched while `Running`. -/
def winWorld : World :=
  { ents := winEnts, thrusters := [], state := GameState.Running, frameDuration := 1,
    difficulty := 1, keys := [], viewport := vp0 }

/-- The no-win scenario as a world. -/
def loseWorld : World :=
  { ents := loseEnts, thrusters := [], state := GameState.Running, frameDuration := 1,
    difficulty := 1, keys := [], viewport := vp0 }

/-- C4 witness: the detector declares the near scenario `Won` and leaves the
far scenario entirely unchanged. -/
theorem victory_iff_witness :
    (victoryRun winWorld).state = GameState.Won ∧ victoryRun loseWorld = loseWorld := by
  constructor
  · exact (victory_iff winWorld).1.mpr (Or.inl wonCond_winEnts)
  · exact (victory_iff loseWorld).2 not_wonCond_loseEnts

/-- A world already won, with the far scenario's entities. -/
def wonWorld : World :=
  { ents := loseEnts, thrusters := [], state := GameState.Won, frameDuration := 1,
    difficulty := 1, keys := [], viewport := vp0 }

/-- C5 witness: from `Won`, the toggle, the detector and two further ticks all
leave the state `Won`. -/
theorem won_terminal_witness :
    wonWorld.state = GameState.Won ∧
    GameState.toggle wonWorld.state = GameState.Won ∧
    (victoryRun wonWorld).state = GameState.Won ∧
    (dispatchMany [1, 2] wonWorld).state = GameState.Won := by
  have h := won_terminal wonWorld rfl
  exact ⟨rfl, h.1, h.2.1, h.2.2 [1, 2]⟩

/-- A paused world holding a movable, steerable ship with an armed thruster
whose key is pressed; difficulty 100 as in the source's setup. -/
def pausedWorld : World :=
  { ents := [{ blankEnt with
               pos := some ⟨600, 650⟩
               speed := some ⟨5, 0⟩
               mass := some 50
               rot := some 60
               rotSpeed := some 1
               shipKey := some 3 }],
    thrusters := [{ ship := 0, position := ⟨10, 0⟩, direction := 0, len := 15,
                    key := 4, pushDirection := 0, push := 8, rotTorque := 0 }],
    state := GameState.Paused, frameDuration := 2, difficulty := 100,
    keys := [4], viewport := vp0 }

/-- C3 witness: two paused ticks of elapsed times 1 and 2 leave the ship's
Position, Speed and Rotation untouched. -/
theorem paused_ticks_frozen_witness :
    pausedWorld.state = GameState.Paused ∧
    ((dispatchMany [1, 2] pausedWorld).ents.map Ent.pos = pausedWorld.ents.map Ent.pos ∧
      (dispatchMany [1, 2] pausedWorld).ents.map Ent.speed =
        pausedWorld.ents.map Ent.speed ∧
      (dispatchMany [1, 2] pausedWorld).ents.map Ent.rot = pausedWorld.ents.map Ent.rot) :=
  ⟨rfl, paused_ticks_frozen pausedWorld rfl [1, 2]⟩

/-- The win scenario entered while `Paused`. -/
def pausedWinWorld : World :=
  { ents := winEnts, thrusters := [], state := GameState.Paused, frameDuration := 1,
    difficulty := 1, keys := [], viewport := vp0 }

/-- C10 witness: a tick dispatched from `Paused` with the win condition already
satisfied ends in `Won` with the entity list untouched. -/
theorem victory_while_paused_witness :
    pausedWinWorld.state = GameState.Paused ∧
    (dispatch 1 pausedWinWorld).state = GameState.Won ∧
    (dispatch 1 pausedWinWorld).ents = pausedWinWorld.ents := by
  have h := victory_while_paused 1 pausedWinWorld (Or.inl rfl) wonCond_winEnts
  exact ⟨rfl, h.1, h.2⟩

end Thrust
